import Mathlib

/-!
Verification of the AutoAnalyst retrieval engine and agent planner.

Shallow embedding of `backend/app/agents/tools/rag_tool.py` and
`backend/app/agents/planner.py`.  Python dictionaries are modelled as
association lists over `String` keys (`alistLookup` / `alistSet` /
`alistErase` mirror `d[k]`, `d[k] = v` / `dict.update` per key, and
`del d[k]`).  Python float arithmetic on FAISS L2 distances is modelled
by exact rational arithmetic over `ℚ`.  Fallible operations (the FAISS
similarity search, the agent executor run) are passed in as `Except`
values; code that catches every exception is modelled by a total
function matching on that `Except`.
-/

namespace AutoAnalyst

/-- Association-list lookup, modelling Python `d.get(k)` / `k in d`. -/
def alistLookup {α : Type} : List (String × α) → String → Option α
  | [], _ => none
  | (k, v) :: rest, key => if k = key then some v else alistLookup rest key

/-- Association-list assignment, modelling Python `d[k] = v` (and
`dict.update` applied key by key): an existing key keeps its position,
a new key is appended at the end. -/
def alistSet {α : Type} : List (String × α) → String → α → List (String × α)
  | [], key, v => [(key, v)]
  | (k, w) :: rest, key, v =>
      if k = key then (key, v) :: rest else (k, w) :: alistSet rest key v

/-- Association-list deletion, modelling Python `del d[k]`. -/
def alistErase {α : Type} (m : List (String × α)) (key : String) : List (String × α) :=
  m.filter (fun kv => kv.1 ≠ key)

/-! ## RAG tool: similarity search (`RAGTool._arun`) -/

/-- A metadata value stored in a chunk's metadata dict: the source code
stores strings (`source`, `file_path`, `added_date`) and one integer
(`chunk_index`). -/
inductive MVal where
  | s (v : String)
  | n (v : Nat)
deriving DecidableEq, Repr

/-- A chunk metadata dictionary. -/
abbrev Meta := List (String × MVal)

/-- A document retrieved by `similarity_search_with_score`:
`metaSource` models `doc.metadata.get("source")` (`none` when the key
is absent, in which case the code falls back to `"Unknown"`), and
`pageContent` models `doc.page_content`. -/
structure RetrievedDoc where
  metaSource : Option String
  pageContent : String
deriving DecidableEq, Repr

/-- One entry of the `sources` list built by `RAGTool._arun`. -/
structure SourceEntry where
  filename : String
  similarity : ℚ
  content : String
deriving DecidableEq, Repr

/-- The dictionary returned by `RAGTool._arun`. -/
structure RagResult where
  answer : String
  sources : List SourceEntry
  query : String
deriving DecidableEq, Repr

/-- The distance-to-similarity transform of `RAGTool._arun`:
`similarity = 1.0 / (1.0 + score)`. -/
def toSimilarity (score : ℚ) : ℚ := 1 / (1 + score)

/-- The relevance-gate loop of `RAGTool._arun`: for each retrieved
`(doc, score)` pair in order, convert the distance to a similarity and
keep the pair exactly when `similarity > 0.7`. -/
def relevantOf (docs : List (RetrievedDoc × ℚ)) : List (RetrievedDoc × ℚ) :=
  docs.filterMap fun p =>
    let similarity := toSimilarity p.2
    if similarity > (7 : ℚ) / 10 then some (p.1, similarity) else none

/-- Python `round(x, 2)`: round to two decimal places.  Python rounds
floats half-to-even; ties are immaterial to every claim proved here, so
rounding of the exact rational is used. -/
def round2 (x : ℚ) : ℚ := (round (x * 100) : ℚ) / 100

/-- The content truncation of the `sources` formatting:
`content[:200] + "..."` when longer than 200 characters. -/
def truncate200 (c : String) : String :=
  if c.length > 200 then c.take 200 ++ "..." else c

/-- One `sources` entry as built by `RAGTool._arun` from a kept
`(doc, similarity)` pair. -/
def mkSourceEntry (p : RetrievedDoc × ℚ) : SourceEntry :=
  { filename := p.1.metaSource.getD "Unknown"
    similarity := round2 (p.2 * 100)
    content := truncate200 p.1.pageContent }

/-- The context block built by `RAGTool._arun` from the kept chunks. -/
def contextOf (relevant : List (RetrievedDoc × ℚ)) : String :=
  String.intercalate "\n\n" (relevant.map fun p =>
    "Document: " ++ p.1.metaSource.getD "Unknown" ++ "\nContent: " ++ p.1.pageContent)

/-- `RAGTool._arun`.  `vectorstoreReady` models `self.vectorstore` being
set, `metadataCount` models `len(self.document_metadata)`, `ntotal`
models `self.vectorstore.index.ntotal`, `searchResult` is the outcome of
`similarity_search_with_score` (an exception there is caught by the
surrounding `try`), and `generateAnswer` models `_generate_answer`
(total: that helper catches its own exceptions and returns a fallback
string).  The second component of the result records whether the
language-model capability (`_generate_answer`) was invoked.  The whole
body is wrapped in `try/except`, so the function always returns a
result dictionary and never raises. -/
def ragArun (vectorstoreReady : Bool) (metadataCount ntotal : Nat)
    (searchResult : Except String (List (RetrievedDoc × ℚ)))
    (generateAnswer : String → String → String) (query : String) :
    RagResult × Bool :=
  if !vectorstoreReady then
    ({ answer := "The document search system is not initialized yet. Please try again in a moment."
       sources := []
       query := query }, false)
  else if metadataCount = 0 then
    ({ answer := "No documents have been uploaded yet. Please upload some documents first."
       sources := []
       query := query }, false)
  else if ntotal = 0 then
    ({ answer := "The document database is empty. Please upload some documents first."
       sources := []
       query := query }, false)
  else
    match searchResult with
    | Except.error e =>
        ({ answer := "I encountered an error while searching through documents: " ++ e
             ++ ". Please try again later."
           sources := []
           query := query }, false)
    | Except.ok docs =>
        let relevant := relevantOf docs
        if relevant = [] then
          ({ answer := "I couldn\x27t find any relevant information in the uploaded documents. Please try rephrasing your question or upload more relevant documents."
             sources := []
             query := query }, false)
        else
          ({ answer := generateAnswer query (contextOf relevant)
             sources := relevant.map mkSourceEntry
             query := query }, true)

/-! ## RAG tool: ingestion branch (`RAGTool.add_document`) -/

/-- The index-update step of `RAGTool.add_document`, tracking the
vectors held by the FAISS index (one entry per embedded chunk).  The
source replaces the whole index with `FAISS.from_documents(chunks, …)`
when `self.vectorstore.index.ntotal == 1` (comment: "Only dummy
document") and otherwise appends via `add_documents`.  Nothing happens
when the chunk list is empty (`if chunks:`). -/
def addDocumentVectors (index chunks : List String) : List String :=
  if chunks = [] then index
  else if index.length = 1 then chunks
  else index ++ chunks

/-- Modelled from the spec: the index-update step as the spec states it,
for comparison with `addDocumentVectors` — replace the index wholesale
when it is in the bootstrap empty state (`ntotal == 0`), append
otherwise. -/
def specAddDocumentVectors (index chunks : List String) : List String :=
  if chunks = [] then index
  else if index.length = 0 then chunks
  else index ++ chunks

/-! ## RAG tool: chunk metadata annotation (`RAGTool.add_document`) -/

/-- A document chunk as produced by the text splitter: `page_content`
plus a metadata dict.  The constant pydantic `type` field, equal on all
chunks, is omitted from the equality model. -/
structure Chunk where
  pageContent : String
  metadata : Meta
deriving DecidableEq, Repr

/-- Python `==` on dicts: extensional equality of key/value maps. -/
def dictEq (a b : Meta) : Bool :=
  a.all (fun kv => alistLookup b kv.1 = some kv.2) &&
  b.all (fun kv => alistLookup a kv.1 = some kv.2)

/-- Python `==` on langchain `Document` values (pydantic field-wise
equality): equal page content and extensionally equal metadata dicts. -/
def docEq (a b : Chunk) : Bool :=
  (a.pageContent = b.pageContent) && dictEq a.metadata b.metadata

/-- Python `list.index(c)`: position of the first element comparing
equal to `c`.  In `add_document` the probed chunk is always an element
of the list, so the out-of-list value is never reached. -/
def indexFrom : List Chunk → Chunk → Nat
  | [], _ => 0
  | x :: rest, c => if docEq x c then 0 else indexFrom rest c + 1

/-- The `chunk.metadata.update({...})` call of `add_document`: set the
four keys in the dict-literal order `source`, `file_path`,
`added_date`, `chunk_index`. -/
def updateChunkMeta (c : Chunk) (source filePath addedDate : String) (idx : Nat) : Chunk :=
  let m1 := alistSet c.metadata "source" (MVal.s source)
  let m2 := alistSet m1 "file_path" (MVal.s filePath)
  let m3 := alistSet m2 "added_date" (MVal.s addedDate)
  { c with metadata := alistSet m3 "chunk_index" (MVal.n idx) }

/-- The metadata loop of `add_document`: iterate over the chunks in
order; for each chunk, compute `chunks.index(chunk)` against the LIVE
list (already-processed chunks carry their new metadata) and update the
chunk's metadata in place.  `done` is the already-processed front of
the list. -/
def annotateChunksGo (source filePath addedDate : String) :
    List Chunk → List Chunk → List Chunk
  | done, [] => done
  | done, c :: rest =>
      let idx := indexFrom (done ++ c :: rest) c
      annotateChunksGo source filePath addedDate
        (done ++ [updateChunkMeta c source filePath addedDate idx]) rest

/-- The metadata loop of `add_document` over the whole chunk list. -/
def annotateChunks (source filePath addedDate : String) (chunks : List Chunk) : List Chunk :=
  annotateChunksGo source filePath addedDate [] chunks

/-- Helper for stating what the loop produces: chunk `i` of the list
annotated with sequence index `j + i`. -/
def annotatedFrom (source filePath addedDate : String) : Nat → List Chunk → List Chunk
  | _, [] => []
  | j, c :: rest =>
      updateChunkMeta c source filePath addedDate j ::
        annotatedFrom source filePath addedDate (j + 1) rest

/-! ## RAG tool: document listing and deletion -/

/-- The per-document record kept in `self.document_metadata`. -/
structure DocMeta where
  filePath : String
  chunksCount : Nat
  addedDate : String
  fileSize : Nat
deriving DecidableEq, Repr

/-- The `document_metadata` map: file name to document record. -/
abbrev DocMetadata := List (String × DocMeta)

/-- `RAGTool.list_documents`: one entry per tracked document, built
from the metadata map alone (the index is not consulted). -/
def listDocuments (metadata : DocMetadata) : List (String × DocMeta) :=
  metadata.map fun kv => (kv.1, kv.2)

/-- `RAGTool.delete_document`: returns `false` and changes nothing when
the file name is not tracked; otherwise removes the metadata entry and
calls `_save_vectorstore()` — fallible file I/O passed in as `save` —
before returning `true`.  A raised save error is caught by the
surrounding `except`, which returns `false`: by then the in-memory
metadata map has already been replaced, so the entry is removed either
way.  The FAISS index (represented by its vector count `ntotal`) is not
touched in any case. -/
def deleteDocument (metadata : DocMetadata) (ntotal : Nat) (filename : String)
    (save : Except String Unit) : DocMetadata × Nat × Bool :=
  if (alistLookup metadata filename).isNone then
    (metadata, ntotal, false)
  else
    match save with
    | Except.ok _ => (alistErase metadata filename, ntotal, true)
    | Except.error _ => (alistErase metadata filename, ntotal, false)

/-! ## Planner (`QueryPlanner`) -/

/-- One entry of a session's `messages` list.  The wall-clock
`timestamp` string is uninterpreted and omitted; user messages carry
none of the artifact fields (`sources`, `charts`, `query_type`),
assistant messages carry all three, which the `Option` wrappers
record.  Artifact payloads are uninterpreted strings here. -/
structure SessionMsg where
  role : String
  content : String
  sources : Option (List String)
  charts : Option (List String)
  queryType : Option String
deriving DecidableEq, Repr

/-- The dictionary produced by `QueryPlanner._run_agent` and returned by
`process_query` (the `intermediate_steps` list, unused by the claims,
is not tracked). -/
structure PlannerResponse where
  answer : String
  sources : List String
  charts : List String
  queryType : String
deriving DecidableEq, Repr

/-- The `self.sessions` map, session id to message list (the
`ConversationBufferMemory` attached to each session feeds only the
routing prompt and is not part of the visible history). -/
abbrev Sessions := List (String × List SessionMsg)

/-- `QueryPlanner.get_session_history`: the session's messages, or `[]`
for an unknown session id. -/
def getSessionHistory (ss : Sessions) (sid : String) : List SessionMsg :=
  (alistLookup ss sid).getD []

/-- `QueryPlanner.process_query`.  The session entry is created if
absent and the user message is appended before the agent runs; the
agent run (`_run_agent`, whose exceptions propagate to the top-level
`except`) is passed in as `agentRun`.  On success the assistant message
is appended and the agent's result returned; on any caught exception
the already-appended user message remains and a degraded response is
returned.  The function is total: `process_query` never propagates an
exception to its caller. -/
def processQuery (ss : Sessions) (query sid : String)
    (agentRun : Except String PlannerResponse) : Sessions × PlannerResponse :=
  let msgs1 := getSessionHistory ss sid ++
    [{ role := "user", content := query, sources := none, charts := none, queryType := none }]
  match agentRun with
  | Except.ok r =>
      (alistSet ss sid (msgs1 ++
        [{ role := "assistant", content := r.answer, sources := some r.sources
           charts := some r.charts, queryType := some r.queryType }]), r)
  | Except.error e =>
      (alistSet ss sid msgs1,
       { answer := "I apologize, but I encountered an error while processing your query: " ++ e
         sources := []
         charts := []
         queryType := "error" })

/-- A sequence of `process_query` calls against one session, each with
its query text and its agent-run outcome. -/
def runQueries (ss : Sessions) (sid : String) :
    List (String × Except String PlannerResponse) → Sessions
  | [] => ss
  | (q, r) :: rest => runQueries (processQuery ss q sid r).1 sid rest

/-- The turns that a list of successful calls appends to a fresh
session: user message then assistant message, per call, in order. -/
def turnsOf : List (String × PlannerResponse) → List SessionMsg
  | [] => []
  | (q, r) :: rest =>
      { role := "user", content := q, sources := none, charts := none, queryType := none } ::
      { role := "assistant", content := r.answer, sources := some r.sources
        charts := some r.charts, queryType := some r.queryType } :: turnsOf rest

/-- The role sequence of an alternating user/assistant history of `n`
exchanges. -/
def rolePattern : Nat → List String
  | 0 => []
  | n + 1 => "user" :: "assistant" :: rolePattern n

/-- One intermediate step of the agent loop, as consumed by the
post-loop extraction: the chosen capability name when the recorded
action carries one (`hasattr(action, "tool")`), and the observation
payload. -/
structure AgentStep where
  toolName : Option String
  observation : String
deriving DecidableEq, Repr

/-- The `tools_used` accumulation of `_determine_query_type`: the tool
name of every step that carries one, in step order. -/
def toolsUsed (steps : List AgentStep) : List String :=
  steps.filterMap AgentStep.toolName

/-- `QueryPlanner._determine_query_type`: fixed-priority membership
tests over `tools_used`. -/
def determineQueryType (steps : List AgentStep) : String :=
  if "rag_search" ∈ toolsUsed steps then "rag_search"
  else if "sql_analytics" ∈ toolsUsed steps then "sql_analytics"
  else if "web_search" ∈ toolsUsed steps then "web_search"
  else "general"

/-- The known capability names. -/
def knownCapabilities : List String := ["rag_search", "sql_analytics", "web_search"]

/-- Modelled from the spec: "`query_type` = name of the first capability
invoked that matches one of the known capability names; `general` if
none matched."  Stated for comparison with `determineQueryType`. -/
def firstInvokedQueryType (steps : List AgentStep) : String :=
  match (toolsUsed steps).find? (fun t => knownCapabilities.contains t) with
  | some t => t
  | none => "general"

/-! ## Association-list lemmas -/

theorem alistLookup_alistSet_self {α : Type} (m : List (String × α)) (key : String) (v : α) :
    alistLookup (alistSet m key v) key = some v := by
  induction m with
  | nil => simp [alistSet, alistLookup]
  | cons kv rest ih =>
      by_cases h : kv.1 = key
      · simp [alistSet, alistLookup, h]
      · simp [alistSet, alistLookup, h, ih]

theorem alistLookup_alistSet_ne {α : Type} (m : List (String × α)) (key key' : String) (v : α)
    (h : key' ≠ key) :
    alistLookup (alistSet m key v) key' = alistLookup m key' := by
  induction m with
  | nil => simp [alistSet, alistLookup, Ne.symm h]
  | cons kv rest ih =>
      obtain ⟨k, w⟩ := kv
      by_cases hk : k = key
      · subst hk
        simp [alistSet, alistLookup, Ne.symm h]
      · by_cases hk' : k = key'
        · simp [alistSet, alistLookup, hk, hk', h]
        · simp [alistSet, alistLookup, hk, hk', ih]

theorem alistLookup_mem {α : Type} : ∀ (m : List (String × α)) (key : String) (v : α),
    alistLookup m key = some v → (key, v) ∈ m
  | [], key, v, h => by simp [alistLookup] at h
  | (k, w) :: rest, key, v, h => by
      by_cases hk : k = key
      · subst hk
        simp [alistLookup] at h
        subst h
        exact List.mem_cons_self _ _
      · simp [alistLookup, hk] at h
        exact List.mem_cons_of_mem _ (alistLookup_mem rest key v h)

theorem alistErase_key_not_mem {α : Type} (m : List (String × α)) (key : String) :
    key ∉ (alistErase m key).map Prod.fst := by
  intro h
  rcases List.mem_map.mp h with ⟨kv, hmem, hfst⟩
  rcases List.mem_filter.mp hmem with ⟨_, hkeep⟩
  rw [hfst] at hkeep
  simp at hkeep

/-! ## C1: ingestion branch -/

/-- C1: the claim says `add_document` replaces the index wholesale when
it is in its bootstrap empty state (`ntotal == 0`) and appends for every
non-empty index.  The code instead replaces when `ntotal == 1` and
appends otherwise: ingesting into an index that already holds exactly
one real chunk vector discards that vector, while ingesting into the
genuinely empty bootstrap index takes the append branch.  This theorem
evaluates both the code's behaviour and the spec's stated behaviour at
the failing input `index = [c0]`, `chunks = [d0]`, and at the bootstrap
input `index = []`. -/
theorem addDocumentVectors_ntotal_one_bug :
    addDocumentVectors ["c0"] ["d0"] = ["d0"] ∧
    specAddDocumentVectors ["c0"] ["d0"] = ["c0", "d0"] ∧
    addDocumentVectors ["c0"] ["d0"] ≠ specAddDocumentVectors ["c0"] ["d0"] ∧
    addDocumentVectors [] ["d0"] = ["d0"] := by
  refine ⟨rfl, rfl, ?_, rfl⟩
  decide

/-! ## C2: the similarity transform -/

/-- C2: the similarity score of a retrieved chunk at L2 distance `d` is
exactly `1 / (1 + d)`; distance `0` maps to `1`, distance `1` maps to
`1/2`, and the transform is strictly decreasing on nonnegative
distances. -/
theorem toSimilarity_formula_correct :
    (∀ d : ℚ, toSimilarity d = 1 / (1 + d)) ∧
    toSimilarity 0 = 1 ∧
    toSimilarity 1 = 1 / 2 ∧
    (∀ d₁ d₂ : ℚ, 0 ≤ d₁ → d₁ < d₂ → toSimilarity d₂ < toSimilarity d₁) := by
  refine ⟨fun d => rfl, by norm_num [toSimilarity], by norm_num [toSimilarity], ?_⟩
  intro d₁ d₂ h0 hlt
  have h1 : (0 : ℚ) < 1 + d₁ := by linarith
  have h2 : (1 : ℚ) + d₁ < 1 + d₂ := by linarith
  simpa [toSimilarity] using one_div_lt_one_div_of_lt h1 h2

/-- Witness for C2 at distances `1 < 2`. -/
theorem toSimilarity_formula_correct_witness :
    (0 : ℚ) ≤ 1 ∧ (1 : ℚ) < 2 ∧ toSimilarity 2 < toSimilarity 1 :=
  ⟨by norm_num, by norm_num,
    toSimilarity_formula_correct.2.2.2 1 2 (by norm_num) (by norm_num)⟩

/-! ## C5: top-level error handling of the agent loop -/

/-- C5: any uncaught error during `process_query` is caught at the top
level and converted into a degraded successful response whose answer is
a human-readable explanation, with `sources = []`, `charts = []` and
`query_type = "error"`.  `processQuery` is a total function — the
caught exception is a value of the `Except` argument — so no raw
exception reaches the caller. -/
theorem processQuery_error_degraded (ss : Sessions) (q sid e : String) :
    (processQuery ss q sid (Except.error e)).2 =
      { answer := "I apologize, but I encountered an error while processing your query: " ++ e
        sources := []
        charts := []
        queryType := "error" } := rfl

/-! ## C6: query-type extraction -/

/-- C6 counterexample: when `web_search` is invoked before `rag_search`,
the first invoked known capability is `web_search`, but
`_determine_query_type` returns `rag_search` — the code tests the known
names in a fixed priority order, not in invocation order. -/
theorem determineQueryType_not_first_invoked :
    determineQueryType [⟨some "web_search", ""⟩, ⟨some "rag_search", ""⟩] = "rag_search" ∧
    firstInvokedQueryType [⟨some "web_search", ""⟩, ⟨some "rag_search", ""⟩] = "web_search" ∧
    determineQueryType [⟨some "web_search", ""⟩, ⟨some "rag_search", ""⟩] ≠
      firstInvokedQueryType [⟨some "web_search", ""⟩, ⟨some "rag_search", ""⟩] := by
  refine ⟨rfl, rfl, ?_⟩
  decide

/-- C6 amended: `query_type` is the highest-priority known capability
name among those invoked during the loop, with priority
`rag_search > sql_analytics > web_search`, and `general` when no step
invoked a known capability. -/
theorem determineQueryType_priority_order (steps : List AgentStep) :
    ("rag_search" ∈ toolsUsed steps → determineQueryType steps = "rag_search") ∧
    ("rag_search" ∉ toolsUsed steps → "sql_analytics" ∈ toolsUsed steps →
      determineQueryType steps = "sql_analytics") ∧
    ("rag_search" ∉ toolsUsed steps → "sql_analytics" ∉ toolsUsed steps →
      "web_search" ∈ toolsUsed steps → determineQueryType steps = "web_search") ∧
    ("rag_search" ∉ toolsUsed steps → "sql_analytics" ∉ toolsUsed steps →
      "web_search" ∉ toolsUsed steps → determineQueryType steps = "general") := by
  refine ⟨?_, ?_, ?_, ?_⟩ <;> intros <;> simp [determineQueryType, *]

/-- Witness for C6's amended theorem: a run whose only invoked known
capability is `web_search`. -/
theorem determineQueryType_priority_order_witness :
    "rag_search" ∉ toolsUsed [⟨some "web_search", ""⟩] ∧
    "sql_analytics" ∉ toolsUsed [⟨some "web_search", ""⟩] ∧
    "web_search" ∈ toolsUsed [⟨some "web_search", ""⟩] ∧
    determineQueryType [⟨some "web_search", ""⟩] = "web_search" :=
  ⟨by decide, by decide, by decide,
    (determineQueryType_priority_order [⟨some "web_search", ""⟩]).2.2.1
      (by decide) (by decide) (by decide)⟩

/-! ## C3, C4, C10: the search operation -/

theorem relevantOf_eq_filter (docs : List (RetrievedDoc × ℚ)) :
    relevantOf docs =
      (docs.map fun p => (p.1, toSimilarity p.2)).filter fun p => (7 : ℚ) / 10 < p.2 := by
  induction docs with
  | nil => rfl
  | cons d rest ih =>
      by_cases h : (7 : ℚ) / 10 < toSimilarity d.2
      · simp [relevantOf, List.filterMap_cons, List.filter_cons, h] at ih ⊢
        exact ih
      · simp [relevantOf, List.filterMap_cons, List.filter_cons, h] at ih ⊢
        exact ih

/-- C3: with the vector store initialized, a query while no documents
are tracked (`metadataCount = 0`) or while the index holds no vectors
(`ntotal = 0`) returns one of the two canned nothing-ingested answers,
with an empty sources list, and the language-model capability is not
invoked (the returned flag is `false`). -/
theorem ragArun_nothing_ingested (metadataCount ntotal : Nat)
    (searchResult : Except String (List (RetrievedDoc × ℚ)))
    (gen : String → String → String) (q : String)
    (h : metadataCount = 0 ∨ ntotal = 0) :
    ((ragArun true metadataCount ntotal searchResult gen q).1.answer =
        "No documents have been uploaded yet. Please upload some documents first." ∨
      (ragArun true metadataCount ntotal searchResult gen q).1.answer =
        "The document database is empty. Please upload some documents first.") ∧
    (ragArun true metadataCount ntotal searchResult gen q).1.sources = [] ∧
    (ragArun true metadataCount ntotal searchResult gen q).2 = false := by
  by_cases hm : metadataCount = 0
  · simp [ragArun, hm]
  · rcases h with h | h
    · exact absurd h hm
    · simp [ragArun, hm, h]

/-- Witness for C3: no tracked documents, three stale vectors. -/
theorem ragArun_nothing_ingested_witness :
    ((0 : Nat) = 0 ∨ (3 : Nat) = 0) ∧
    (((ragArun true 0 3 (Except.ok []) (fun _ _ => "") "q").1.answer =
        "No documents have been uploaded yet. Please upload some documents first." ∨
      (ragArun true 0 3 (Except.ok []) (fun _ _ => "") "q").1.answer =
        "The document database is empty. Please upload some documents first.") ∧
    (ragArun true 0 3 (Except.ok []) (fun _ _ => "") "q").1.sources = [] ∧
    (ragArun true 0 3 (Except.ok []) (fun _ _ => "") "q").2 = false) :=
  ⟨Or.inl rfl, ragArun_nothing_ingested 0 3 (Except.ok []) (fun _ _ => "") "q" (Or.inl rfl)⟩

/-- C4: against a non-empty index, the search keeps exactly the
retrieved chunks whose similarity is strictly greater than `0.7` (in
retrieval order); when none passes, it returns the canned
no-relevant-information answer with empty sources and does not invoke
the language model; when some pass, the sources list is built from
exactly the kept chunks and the language model is invoked. -/
theorem ragArun_relevance_gate (metadataCount ntotal : Nat) (docs : List (RetrievedDoc × ℚ))
    (gen : String → String → String) (q : String)
    (hmc : 0 < metadataCount) (hnt : 0 < ntotal) :
    relevantOf docs =
      ((docs.map fun p => (p.1, toSimilarity p.2)).filter fun p => (7 : ℚ) / 10 < p.2) ∧
    (relevantOf docs = [] →
      (ragArun true metadataCount ntotal (Except.ok docs) gen q).1.answer =
          "I couldn\x27t find any relevant information in the uploaded documents. Please try rephrasing your question or upload more relevant documents." ∧
      (ragArun true metadataCount ntotal (Except.ok docs) gen q).1.sources = [] ∧
      (ragArun true metadataCount ntotal (Except.ok docs) gen q).2 = false) ∧
    (relevantOf docs ≠ [] →
      (ragArun true metadataCount ntotal (Except.ok docs) gen q).1.sources =
          (relevantOf docs).map mkSourceEntry ∧
      (ragArun true metadataCount ntotal (Except.ok docs) gen q).2 = true) := by
  have hm := hmc.ne'
  have hn := hnt.ne'
  refine ⟨relevantOf_eq_filter docs, ?_, ?_⟩ <;> intro hrel <;> simp [ragArun, hm, hn, hrel]

/-- Witness for C4: one tracked document, one retrieved chunk at
distance `0` (similarity `1 > 0.7`). -/
theorem ragArun_relevance_gate_witness :
    (0 : Nat) < 1 ∧ (0 : Nat) < 4 ∧
    relevantOf [(⟨some "a.txt", "hello"⟩, 0)] ≠ [] ∧
    (ragArun true 1 4 (Except.ok [(⟨some "a.txt", "hello"⟩, 0)])
        (fun _ _ => "llm") "q").1.sources =
      (relevantOf [(⟨some "a.txt", "hello"⟩, 0)]).map mkSourceEntry ∧
    (ragArun true 1 4 (Except.ok [(⟨some "a.txt", "hello"⟩, 0)])
        (fun _ _ => "llm") "q").2 = true := by
  have hrel : relevantOf [(⟨some "a.txt", "hello"⟩, (0 : ℚ))] ≠ [] := by
    norm_num [relevantOf, toSimilarity, List.filterMap_cons]
  have h := (ragArun_relevance_gate 1 4 [(⟨some "a.txt", "hello"⟩, 0)] (fun _ _ => "llm") "q"
    (by norm_num) (by norm_num)).2.2 hrel
  exact ⟨by norm_num, by norm_num, hrel, h.1, h.2⟩

/-- C10: for every input and every internal outcome — uninitialized
store, empty corpus, a raised search exception, gated-out results or a
successful answer — `_arun` returns a result whose `query` field equals
the input query (`answer` and `sources` are present by the result
type), and on every branch that does not invoke answer generation the
sources list is empty.  Totality of `ragArun` models the catch-all
`except`: the function never raises. -/
theorem ragArun_shape_and_empty_sources (vReady : Bool) (metadataCount ntotal : Nat)
    (searchResult : Except String (List (RetrievedDoc × ℚ)))
    (gen : String → String → String) (q : String) :
    (ragArun vReady metadataCount ntotal searchResult gen q).1.query = q ∧
    ((ragArun vReady metadataCount ntotal searchResult gen q).2 = false →
      (ragArun vReady metadataCount ntotal searchResult gen q).1.sources = []) := by
  cases vReady
  · simp [ragArun]
  · by_cases hm : metadataCount = 0
    · simp [ragArun, hm]
    · by_cases hn : ntotal = 0
      · simp [ragArun, hm, hn]
      · cases searchResult with
        | error e => simp [ragArun, hm, hn]
        | ok docs =>
            by_cases hrel : relevantOf docs = []
            · simp [ragArun, hm, hn, hrel]
            · simp [ragArun, hm, hn, hrel]

/-- Witness for C10: the uninitialized-store branch. -/
theorem ragArun_shape_and_empty_sources_witness :
    (ragArun false 0 0 (Except.ok []) (fun _ _ => "") "hi").1.query = "hi" ∧
    (ragArun false 0 0 (Except.ok []) (fun _ _ => "") "hi").1.sources = [] :=
  ⟨(ragArun_shape_and_empty_sources false 0 0 (Except.ok []) (fun _ _ => "") "hi").1,
   (ragArun_shape_and_empty_sources false 0 0 (Except.ok []) (fun _ _ => "") "hi").2 rfl⟩

/-! ## C7: session history shape -/

theorem getSessionHistory_alistSet_self (ss : Sessions) (sid : String) (m : List SessionMsg) :
    getSessionHistory (alistSet ss sid m) sid = m := by
  simp [getSessionHistory, alistLookup_alistSet_self]

theorem runQueries_ok_history (sid : String) :
    ∀ (calls : List (String × PlannerResponse)) (ss : Sessions),
    getSessionHistory (runQueries ss sid (calls.map fun c => (c.1, Except.ok c.2))) sid =
      getSessionHistory ss sid ++ turnsOf calls
  | [], ss => by simp [runQueries, turnsOf]
  | (q, r) :: rest, ss => by
      simp only [List.map_cons, runQueries, processQuery]
      rw [runQueries_ok_history sid rest]
      simp [getSessionHistory_alistSet_self, turnsOf]

theorem turnsOf_length :
    ∀ calls : List (String × PlannerResponse), (turnsOf calls).length = 2 * calls.length
  | [] => rfl
  | (q, r) :: rest => by
      simp [turnsOf, turnsOf_length rest]
      omega

theorem turnsOf_map_role :
    ∀ calls : List (String × PlannerResponse),
      (turnsOf calls).map SessionMsg.role = rolePattern calls.length
  | [] => rfl
  | (q, r) :: rest => by simp [turnsOf, rolePattern, turnsOf_map_role rest]

/-- C7 counterexample: a single query call whose agent run raises leaves
the session history with one turn (the user turn only), not the `2 × 1`
turns the claim requires for every call. -/
theorem history_error_call_not_two_turns :
    (getSessionHistory (runQueries [] "s" [("q", Except.error "boom")]) "s").length = 1 ∧
    (getSessionHistory (runQueries [] "s" [("q", Except.error "boom")]) "s").length ≠ 2 * 1 := by
  refine ⟨rfl, ?_⟩
  decide

/-- C7 amended: for every session and every sequence of N query calls
whose agent runs all succeed, the session history afterwards is exactly
the user turn followed by the assistant turn of each call, in call
order — hence 2N turns whose roles alternate user, assistant, … .  A
call whose agent run raises contributes only its user turn. -/
theorem history_successful_calls_two_turns (sid : String)
    (calls : List (String × PlannerResponse)) :
    getSessionHistory (runQueries [] sid (calls.map fun c => (c.1, Except.ok c.2))) sid =
      turnsOf calls ∧
    (getSessionHistory (runQueries [] sid (calls.map fun c => (c.1, Except.ok c.2))) sid).length
      = 2 * calls.length ∧
    (getSessionHistory (runQueries [] sid (calls.map fun c => (c.1, Except.ok c.2))) sid).map
      SessionMsg.role = rolePattern calls.length := by
  have h := runQueries_ok_history sid calls []
  have h0 : getSessionHistory ([] : Sessions) sid = [] := rfl
  rw [h0, List.nil_append] at h
  refine ⟨h, ?_, ?_⟩ <;> rw [h]
  · exact turnsOf_length calls
  · exact turnsOf_map_role calls

/-! ## C8: document deletion -/

/-- C8 counterexample: deleting the tracked document `a.txt` while
`_save_vectorstore` raises returns `false`, not `true` as the claim
states for every tracked filename — the catch-all `except` converts the
save failure into a `false` return, although the in-memory metadata
entry has already been removed by that point. -/
theorem deleteDocument_tracked_save_failure :
    alistLookup [("a.txt", (⟨"/up/a.txt", 3, "2026-01-01", 1024⟩ : DocMeta))] "a.txt" =
      some ⟨"/up/a.txt", 3, "2026-01-01", 1024⟩ ∧
    (deleteDocument [("a.txt", ⟨"/up/a.txt", 3, "2026-01-01", 1024⟩)] 7 "a.txt"
      (Except.error "disk full")).2.2 = false ∧
    (deleteDocument [("a.txt", ⟨"/up/a.txt", 3, "2026-01-01", 1024⟩)] 7 "a.txt"
      (Except.error "disk full")).1 =
      alistErase [("a.txt", ⟨"/up/a.txt", 3, "2026-01-01", 1024⟩)] "a.txt" :=
  ⟨rfl, rfl, rfl⟩

/-- C8 amended: deleting an untracked file name returns `false` and
leaves the metadata map (and the index) unchanged, whatever the
persistence outcome would be.  Deleting a tracked file name removes the
metadata entry — the document is immediately absent from
`list_documents`, regardless of the physical vector count, which is
untouched — and returns `true` when persisting the store succeeds but
`false` when persisting raises. -/
theorem deleteDocument_tracked_untracked (metadata : DocMetadata) (ntotal : Nat)
    (filename : String) (save : Except String Unit) :
    (alistLookup metadata filename = none →
      deleteDocument metadata ntotal filename save = (metadata, ntotal, false)) ∧
    (∀ dm : DocMeta, alistLookup metadata filename = some dm → save = Except.ok () →
      (deleteDocument metadata ntotal filename save).2.2 = true ∧
      (deleteDocument metadata ntotal filename save).2.1 = ntotal ∧
      filename ∉
        (listDocuments (deleteDocument metadata ntotal filename save).1).map Prod.fst) ∧
    (∀ (dm : DocMeta) (e : String),
      alistLookup metadata filename = some dm → save = Except.error e →
      (deleteDocument metadata ntotal filename save).2.2 = false ∧
      (deleteDocument metadata ntotal filename save).2.1 = ntotal ∧
      filename ∉
        (listDocuments (deleteDocument metadata ntotal filename save).1).map Prod.fst) := by
  have hnot : filename ∉ (listDocuments (alistErase metadata filename)).map Prod.fst := by
    have hmap : (listDocuments (alistErase metadata filename)).map Prod.fst
        = (alistErase metadata filename).map Prod.fst := by
      simp [listDocuments]
    rw [hmap]
    exact alistErase_key_not_mem metadata filename
  refine ⟨fun h => by simp [deleteDocument, h], ?_, ?_⟩
  · intro dm h hs
    have hsome : (alistLookup metadata filename).isNone = false := by simp [h]
    subst hs
    refine ⟨by simp [deleteDocument, hsome], by simp [deleteDocument, hsome], ?_⟩
    have hsel : (deleteDocument metadata ntotal filename (Except.ok ())).1
        = alistErase metadata filename := by
      simp [deleteDocument, hsome]
    rw [hsel]
    exact hnot
  · intro dm e h hs
    have hsome : (alistLookup metadata filename).isNone = false := by simp [h]
    subst hs
    refine ⟨by simp [deleteDocument, hsome], by simp [deleteDocument, hsome], ?_⟩
    have hsel : (deleteDocument metadata ntotal filename (Except.error e)).1
        = alistErase metadata filename := by
      simp [deleteDocument, hsome]
    rw [hsel]
    exact hnot

/-- Witness for C8's amended theorem: deleting the single tracked
document with a succeeding save. -/
theorem deleteDocument_tracked_untracked_witness :
    alistLookup [("a.txt", (⟨"/up/a.txt", 3, "2026-01-01", 1024⟩ : DocMeta))] "a.txt" =
      some ⟨"/up/a.txt", 3, "2026-01-01", 1024⟩ ∧
    (deleteDocument [("a.txt", ⟨"/up/a.txt", 3, "2026-01-01", 1024⟩)] 7 "a.txt"
      (Except.ok ())).2.2 = true ∧
    (deleteDocument [("a.txt", ⟨"/up/a.txt", 3, "2026-01-01", 1024⟩)] 7 "a.txt"
      (Except.ok ())).2.1 = 7 ∧
    "a.txt" ∉ (listDocuments
      (deleteDocument [("a.txt", ⟨"/up/a.txt", 3, "2026-01-01", 1024⟩)] 7 "a.txt"
        (Except.ok ())).1).map Prod.fst := by
  have h := (deleteDocument_tracked_untracked
      [("a.txt", ⟨"/up/a.txt", 3, "2026-01-01", 1024⟩)] 7 "a.txt" (Except.ok ())).2.1
    ⟨"/up/a.txt", 3, "2026-01-01", 1024⟩ rfl rfl
  exact ⟨rfl, h.1, h.2.1, h.2.2⟩

/-! ## C9: chunk metadata annotation -/

theorem alistLookup_of_mem_nodup : ∀ (m : Meta) (k : String) (v : MVal),
    (m.map Prod.fst).Nodup → (k, v) ∈ m → alistLookup m k = some v
  | [], k, v, _, hmem => by simp at hmem
  | (k0, v0) :: rest, k, v, hnd, hmem => by
      simp only [List.map_cons, List.nodup_cons] at hnd
      rcases List.mem_cons.mp hmem with h | h
      · rcases Prod.mk.inj h with ⟨rfl, rfl⟩
        simp [alistLookup]
      · have hk : k0 ≠ k := by
          intro he
          subst he
          exact hnd.1 (List.mem_map.mpr ⟨(k0, v), h, rfl⟩)
        simp only [alistLookup, hk, if_false]
        exact alistLookup_of_mem_nodup rest k v hnd.2 h

theorem dictEq_refl (m : Meta) (hnd : (m.map Prod.fst).Nodup) : dictEq m m = true := by
  simp only [dictEq, Bool.and_eq_true, List.all_eq_true]
  constructor <;>
    · intro kv hkv
      simp [alistLookup_of_mem_nodup m kv.1 kv.2 hnd hkv]

theorem dictEq_false_of_some_none (a b : Meta) (key : String) (v : MVal)
    (ha : alistLookup a key = some v) (hb : alistLookup b key = none) :
    dictEq a b = false := by
  rw [Bool.eq_false_iff]
  intro h
  simp only [dictEq, Bool.and_eq_true, List.all_eq_true] at h
  have hent := h.1 (key, v) (alistLookup_mem a key v ha)
  simp [hb] at hent

theorem docEq_self (c : Chunk) (hnd : (c.metadata.map Prod.fst).Nodup) :
    docEq c c = true := by
  simp [docEq, dictEq_refl c.metadata hnd]

theorem docEq_false_of_chunk_index (a b : Chunk) (v : MVal)
    (ha : alistLookup a.metadata "chunk_index" = some v)
    (hb : alistLookup b.metadata "chunk_index" = none) :
    docEq a b = false := by
  simp [docEq, dictEq_false_of_some_none a.metadata b.metadata "chunk_index" v ha hb]

theorem updateChunkMeta_chunk_index (c : Chunk) (s f d : String) (i : Nat) :
    alistLookup (updateChunkMeta c s f d i).metadata "chunk_index" = some (MVal.n i) := by
  simp [updateChunkMeta, alistLookup_alistSet_self]

theorem updateChunkMeta_source (c : Chunk) (s f d : String) (i : Nat) :
    alistLookup (updateChunkMeta c s f d i).metadata "source" = some (MVal.s s) := by
  show alistLookup (alistSet (alistSet (alistSet (alistSet c.metadata "source" (MVal.s s))
    "file_path" (MVal.s f)) "added_date" (MVal.s d)) "chunk_index" (MVal.n i)) "source"
    = some (MVal.s s)
  rw [alistLookup_alistSet_ne _ _ _ _ (by decide), alistLookup_alistSet_ne _ _ _ _ (by decide),
    alistLookup_alistSet_ne _ _ _ _ (by decide), alistLookup_alistSet_self]

theorem updateChunkMeta_added_date (c : Chunk) (s f d : String) (i : Nat) :
    alistLookup (updateChunkMeta c s f d i).metadata "added_date" = some (MVal.s d) := by
  show alistLookup (alistSet (alistSet (alistSet (alistSet c.metadata "source" (MVal.s s))
    "file_path" (MVal.s f)) "added_date" (MVal.s d)) "chunk_index" (MVal.n i)) "added_date"
    = some (MVal.s d)
  rw [alistLookup_alistSet_ne _ _ _ _ (by decide), alistLookup_alistSet_self]

theorem indexFrom_append_fresh : ∀ (done : List Chunk) (c : Chunk) (rest : List Chunk),
    (∀ x ∈ done, ∃ v, alistLookup x.metadata "chunk_index" = some v) →
    alistLookup c.metadata "chunk_index" = none →
    (c.metadata.map Prod.fst).Nodup →
    indexFrom (done ++ c :: rest) c = done.length
  | [], c, rest, _, _, hnd => by
      simp [indexFrom, docEq_self c hnd]
  | x :: done, c, rest, hdone, hc, hnd => by
      obtain ⟨v, hv⟩ := hdone x (List.mem_cons_self x done)
      have hx : docEq x c = false := docEq_false_of_chunk_index x c v hv hc
      simp [indexFrom, hx,
        indexFrom_append_fresh done c rest
          (fun y hy => hdone y (List.mem_cons_of_mem x hy)) hc hnd]

theorem annotateChunksGo_eq (s f d : String) :
    ∀ (rest done : List Chunk),
    (∀ x ∈ done, ∃ v, alistLookup x.metadata "chunk_index" = some v) →
    (∀ x ∈ rest, alistLookup x.metadata "chunk_index" = none) →
    (∀ x ∈ rest, (x.metadata.map Prod.fst).Nodup) →
    annotateChunksGo s f d done rest = done ++ annotatedFrom s f d done.length rest
  | [], done, _, _, _ => by simp [annotateChunksGo, annotatedFrom]
  | c :: rest, done, hdone, hfresh, hnd => by
      have hidx : indexFrom (done ++ c :: rest) c = done.length :=
        indexFrom_append_fresh done c rest hdone (hfresh c (List.mem_cons_self c rest))
          (hnd c (List.mem_cons_self c rest))
      have hdone' : ∀ x ∈ done ++ [updateChunkMeta c s f d done.length],
          ∃ v, alistLookup x.metadata "chunk_index" = some v := by
        intro x hx
        rcases List.mem_append.mp hx with hx | hx
        · exact hdone x hx
        · simp only [List.mem_singleton] at hx
          subst hx
          exact ⟨MVal.n done.length, updateChunkMeta_chunk_index c s f d done.length⟩
      have ih := annotateChunksGo_eq s f d rest (done ++ [updateChunkMeta c s f d done.length])
        hdone' (fun x hx => hfresh x (List.mem_cons_of_mem c hx))
        (fun x hx => hnd x (List.mem_cons_of_mem c hx))
      simp only [annotateChunksGo, hidx]
      rw [ih]
      simp [annotatedFrom, List.append_assoc]

theorem annotatedFrom_length (s f d : String) :
    ∀ (j : Nat) (l : List Chunk), (annotatedFrom s f d j l).length = l.length
  | _, [] => rfl
  | j, c :: rest => by simp [annotatedFrom, annotatedFrom_length s f d (j + 1) rest]

theorem annotatedFrom_chunk_index (s f d : String) :
    ∀ (l : List Chunk) (j : Nat),
      (annotatedFrom s f d j l).map (fun c => alistLookup c.metadata "chunk_index") =
        (List.range' j l.length).map (fun i => some (MVal.n i))
  | [], j => by simp [annotatedFrom]
  | c :: rest, j => by
      rw [annotatedFrom, List.length_cons, List.range'_succ j rest.length 1]
      simp [updateChunkMeta_chunk_index, annotatedFrom_chunk_index s f d rest (j + 1)]

theorem annotatedFrom_source_date (s f d : String) :
    ∀ (l : List Chunk) (j : Nat), ∀ c ∈ annotatedFrom s f d j l,
      alistLookup c.metadata "source" = some (MVal.s s) ∧
      alistLookup c.metadata "added_date" = some (MVal.s d)
  | [], j => by simp [annotatedFrom]
  | c :: rest, j => by
      intro x hx
      rw [annotatedFrom] at hx
      rcases List.mem_cons.mp hx with h | h
      · subst h
        exact ⟨updateChunkMeta_source c s f d j, updateChunkMeta_added_date c s f d j⟩
      · exact annotatedFrom_source_date s f d rest (j + 1) x h

/-- C9: annotating a chunk list of length n (whose chunks, as produced
by the text splitter, do not already carry a `chunk_index` key and have
duplicate-free metadata keys) attaches to the chunk at position i the
source name, the ingestion date and the sequence index i — so the n
chunks carry the n distinct indices 0..n-1 even when two chunks have
equal text, because each already-processed chunk carries metadata that
a not-yet-processed duplicate lacks when `list.index` scans the live
list. -/
theorem annotateChunks_sequence_indices (s f d : String) (chunks : List Chunk)
    (hfresh : ∀ c ∈ chunks, alistLookup c.metadata "chunk_index" = none)
    (hnd : ∀ c ∈ chunks, (c.metadata.map Prod.fst).Nodup) :
    (annotateChunks s f d chunks).length = chunks.length ∧
    (annotateChunks s f d chunks).map (fun c => alistLookup c.metadata "chunk_index") =
      (List.range chunks.length).map (fun i => some (MVal.n i)) ∧
    (∀ c ∈ annotateChunks s f d chunks,
      alistLookup c.metadata "source" = some (MVal.s s) ∧
      alistLookup c.metadata "added_date" = some (MVal.s d)) := by
  have hgo := annotateChunksGo_eq s f d chunks [] (by simp) hfresh hnd
  have heq : annotateChunks s f d chunks = annotatedFrom s f d 0 chunks := by
    simpa [annotateChunks] using hgo
  rw [heq]
  refine ⟨annotatedFrom_length s f d 0 chunks, ?_, annotatedFrom_source_date s f d chunks 0⟩
  rw [annotatedFrom_chunk_index s f d chunks 0, List.range_eq_range' chunks.length]

/-- Witness for C9: two chunks with identical text and identical (empty)
splitter metadata still receive the two distinct indices 0 and 1. -/
theorem annotateChunks_sequence_indices_witness :
    (∀ c ∈ [(⟨"dup", []⟩ : Chunk), ⟨"dup", []⟩],
      alistLookup c.metadata "chunk_index" = none) ∧
    (∀ c ∈ [(⟨"dup", []⟩ : Chunk), ⟨"dup", []⟩], (c.metadata.map Prod.fst).Nodup) ∧
    (annotateChunks "a.txt" "/up/a.txt" "2026-01-01"
        [⟨"dup", []⟩, ⟨"dup", []⟩]).map (fun c => alistLookup c.metadata "chunk_index") =
      (List.range 2).map (fun i => some (MVal.n i)) := by
  have h := annotateChunks_sequence_indices "a.txt" "/up/a.txt" "2026-01-01"
    [⟨"dup", []⟩, ⟨"dup", []⟩] (by simp [alistLookup]) (by simp)
  exact ⟨by simp [alistLookup], by simp, h.2.1⟩

end AutoAnalyst
